import Mathlib

/-!
Verification development for the Talkie response-cache subsystem.

The pipeline (`HttpClient.request` in `talkie/core/client.py`) and the CLI
`cache config` action (`talkie/cli/main.py`) are embedded from the source.
The `ResponseCache` store itself (`talkie/utils/cache.py`) is not part of the
available sources, so its operations are modelled from the specification
(sections 4.1 to 4.5 and 7 of the spec); every such definition is marked
`Modelled from the spec:` in its doc comment.

Machine integers do not occur: sizes, timestamps and status codes are Nat.
Python dictionaries of strings are embedded as association lists.
-/

namespace Talkie

/-! ## Data model -/

/-- CacheConfig with the defaults asserted by `test_default_config`. -/
structure CacheConfig where
  enabled : Bool := true
  default_ttl : Nat := 300
  max_entries : Nat := 1000
  max_size_mb : Nat := 100
  cache_get : Bool := true
  cache_post : Bool := false
  cache_graphql : Bool := true
  cache_dir : String := ""
deriving Repr, DecidableEq

/-- One cached HTTP exchange, as constructed in `test_cache_entry_creation`. -/
structure CacheEntry where
  url : String
  method : String
  headers : Option (List (String × String))
  params : Option (List (String × String))
  body : Option String
  status_code : Nat
  response_headers : List (String × String)
  response_body : String
  cached_at : Nat
  expires_at : Nat
deriving Repr, DecidableEq

/-- An httpx response as the pipeline sees it: status, headers, content,
plus the originating request's attributes (`response.request` in httpx). -/
structure Response where
  status_code : Nat
  resp_headers : List (String × String)
  content : String
  req_method : String
  req_url : String
  req_headers : Option (List (String × String))
  req_params : Option (List (String × String))
  req_body : Option String
deriving Repr, DecidableEq

/-! ## Substring search (the GraphQL keyword heuristic works on raw bodies) -/

/-- Does the first character list start with the second one? -/
def startsWithChars : List Char → List Char → Bool
  | _, [] => true
  | [], _ :: _ => false
  | c :: cs, p :: ps => c == p && startsWithChars cs ps

/-- Does the first character list contain the second one as a contiguous run? -/
def hasSubstrChars : List Char → List Char → Bool
  | [], pat => pat.isEmpty
  | c :: cs, pat => startsWithChars (c :: cs) pat || hasSubstrChars cs pat

/-- Does `s` contain `pat` as a substring? -/
def containsSubstr (s pat : String) : Bool :=
  hasSubstrChars s.data pat.data

/-- ASCII uppercase mapping of one character (Python `str.upper` on the
ASCII method and header names this program compares). -/
def charUpper (c : Char) : Char :=
  if 97 ≤ c.toNat && c.toNat ≤ 122 then Char.ofNat (c.toNat - 32) else c

/-- ASCII lowercase mapping of one character. -/
def charLower (c : Char) : Char :=
  if 65 ≤ c.toNat && c.toNat ≤ 90 then Char.ofNat (c.toNat + 32) else c

/-- Python `str.upper` (ASCII range, which covers every string compared). -/
def pyUpper (s : String) : String := ⟨s.data.map charUpper⟩

/-- Python `str.lower` (ASCII range, which covers every string compared). -/
def pyLower (s : String) : String := ⟨s.data.map charLower⟩

/-! ## Cacheability policy (spec section 4.3) -/

/-- The three GraphQL operation kinds distinguished by the policy. -/
inductive GqlOp where
  | query
  | mutation
  | subscription
deriving Repr, DecidableEq, BEq

/-- Modelled from the spec: the heuristic operation detection of section 4.3
and design note "Heuristic GraphQL detection via string search" — substring
inspection of the raw body, the write keywords taking precedence over
`query` (`talkie/utils/cache.py` is not among the available sources). -/
def graphqlOperation (body : String) : Option GqlOp :=
  if containsSubstr body "mutation" then some GqlOp.mutation
  else if containsSubstr body "subscription" then some GqlOp.subscription
  else if containsSubstr body "query" then some GqlOp.query
  else none

/-- Operation kind of an optional request body. -/
def bodyOperation (body : Option String) : Option GqlOp :=
  match body with
  | none => none
  | some b => graphqlOperation b

/-- Does some header declare a JSON content type? -/
def isJsonContentType (headers : Option (List (String × String))) : Bool :=
  match headers with
  | none => false
  | some hs => hs.any (fun h => pyLower h.1 == "content-type" && containsSubstr (pyLower h.2) "json")

/-- Is a detected operation the read-only `query` kind? -/
def isQueryOp : Option GqlOp → Bool
  | some GqlOp.query => true
  | _ => false

/-- Is a detected operation one of the side-effecting kinds? -/
def isWriteOp : Option GqlOp → Bool
  | some GqlOp.mutation => true
  | some GqlOp.subscription => true
  | _ => false

/-- Is the body a GraphQL payload whose root operation is a query? -/
def isGraphQLQueryPayload (headers : Option (List (String × String))) (body : Option String) : Bool :=
  isJsonContentType headers && isQueryOp (bodyOperation body)

/-- Is the body a GraphQL mutation or subscription? -/
def isGraphQLWrite (body : Option String) : Bool :=
  isWriteOp (bodyOperation body)

/-- Modelled from the spec: `_should_cache_request`, rules 1-5 of section 4.3
in order; mutations and subscriptions are excluded from the POST/PUT/PATCH
rule by the hard rule of section 4.3 (`talkie/utils/cache.py` is not among
the available sources). Methods are compared as given; the pipeline and the
tests pass them uppercased. -/
def should_cache_request (cfg : CacheConfig) (method : String)
    (headers : Option (List (String × String))) (body : Option String) : Bool :=
  if !cfg.enabled then false
  else if method == "GET" && cfg.cache_get then true
  else if method == "POST" && isGraphQLQueryPayload headers body && cfg.cache_graphql then true
  else if (method == "POST" || method == "PUT" || method == "PATCH")
      && cfg.cache_post && !isGraphQLWrite body then true
  else false

/-! ## Cache key (spec section 4.2) -/

/-- Insert a pair into a key-sorted list of pairs. -/
def insertSorted (p : String × String) : List (String × String) → List (String × String)
  | [] => [p]
  | q :: rest => if p.1 ≤ q.1 then p :: q :: rest else q :: insertSorted p rest

/-- Sort pairs by key (the fixed sort order of spec section 4.2). -/
def sortByKey (l : List (String × String)) : List (String × String) :=
  l.foldr insertSorted []

/-- Serialize a mapping with keys in sorted order. -/
def serializePairs (l : List (String × String)) : String :=
  String.intercalate "&" ((sortByKey l).map (fun p => p.1 ++ "=" ++ p.2))

/-- Modelled from the spec: `_generate_cache_key`, section 4.2 — uppercased
method, sorted headers and params, body verbatim, concatenated into one
deterministic fingerprint. The final SHA-256 step is replaced by the
canonical pre-image string: the claims about the key need its determinism,
which the hash preserves (`talkie/utils/cache.py` is not among the
available sources). -/
def generate_cache_key (method url : String)
    (headers params : Option (List (String × String))) (body : Option String) : String :=
  pyUpper method ++ "|" ++ url ++ "|"
    ++ (match headers with | none => "" | some h => serializePairs h) ++ "|"
    ++ (match params with | none => "" | some p => serializePairs p) ++ "|"
    ++ (match body with | none => "" | some b => b)

/-! ## Body preparation in the pipeline (client.py lines 140-146) -/

/-- Python truthiness of an optional dictionary: None and the empty dict are
falsy. -/
def optTruthy {α : Type} (o : Option (List α)) : Bool :=
  match o with
  | none => false
  | some l => !l.isEmpty

/-- `json.dumps(json_data, sort_keys=True)` for a flat string dictionary. -/
def jsonDumpsSorted (j : List (String × String)) : String :=
  "\x7b" ++ String.intercalate ", "
    ((sortByKey j).map (fun p => "\x22" ++ p.1 ++ "\x22: \x22" ++ p.2 ++ "\x22")) ++ "\x7d"

/-- `str(data)` for a flat string dictionary. -/
def pyStrDict (d : List (String × String)) : String :=
  "\x7b" ++ String.intercalate ", "
    (d.map (fun p => "\x27" ++ p.1 ++ "\x27: \x27" ++ p.2 ++ "\x27")) ++ "\x7d"

/-- The `cache_body` computed in `HttpClient.request` (client.py lines
140-146): `json_data` is serialized when truthy, else `data` is stringified
when truthy, else the body is None. -/
def cacheBody (json_data data : Option (List (String × String))) : Option String :=
  if optTruthy json_data then some (jsonDumpsSorted (json_data.getD []))
  else if optTruthy data then some (pyStrDict (data.getD []))
  else none

/-! ## Response cache store (spec section 4.4; `talkie/utils/cache.py` is
not among the available sources, so the store is modelled from the spec) -/

/-- Serialized size bookkeeping of one entry: the stored payload bytes. -/
def entrySize (e : CacheEntry) : Nat := e.response_body.length

/-- Aggregate serialized size of an index. -/
def totalSize (index : List (String × CacheEntry)) : Nat :=
  (index.map (fun kv => entrySize kv.2)).sum

/-- The byte form of the `max_size_mb` bound. -/
def maxSizeBytes (cfg : CacheConfig) : Nat := cfg.max_size_mb * 1048576

/-- Do entry count and aggregate size respect the configured bounds? -/
def withinBounds (cfg : CacheConfig) (index : List (String × CacheEntry)) : Bool :=
  decide (index.length ≤ cfg.max_entries) && decide (totalSize index ≤ maxSizeBytes cfg)

/-- Remove one entry whose `cached_at` is minimal (the first entry that is at
least as old as everything after it). -/
def removeOldest : List (String × CacheEntry) → List (String × CacheEntry)
  | [] => []
  | e :: rest =>
    if rest.all (fun x => e.2.cached_at ≤ x.2.cached_at) then rest
    else e :: removeOldest rest

/-- The eviction loop, written with a fuel argument so that it is structural
(one entry is removed per round, so any fuel above the list length behaves
like the unbounded while-loop). -/
def evictLoop (cfg : CacheConfig) : Nat → List (String × CacheEntry) → List (String × CacheEntry)
  | 0, l => l
  | fuel + 1, l => if withinBounds cfg l then l else evictLoop cfg fuel (removeOldest l)

/-- Modelled from the spec: eviction immediately after an insert — evict the
least-recently-cached entries, oldest `cached_at` first, until both bounds
are satisfied (spec sections 3 and 4.4). -/
def enforceBounds (cfg : CacheConfig) (index : List (String × CacheEntry)) :
    List (String × CacheEntry) :=
  evictLoop cfg (index.length + 1) index

/-- Entry metadata lookup in the index. -/
def findEntry (index : List (String × CacheEntry)) (k : String) : Option CacheEntry :=
  (index.find? (fun kv => kv.1 == k)).map (fun kv => kv.2)

/-- Drop the entry stored under a key. -/
def removeKey (index : List (String × CacheEntry)) (k : String) :
    List (String × CacheEntry) :=
  index.filter (fun kv => kv.1 != k)

/-- Store an entry under a key: an existing key is overwritten in place, a
fresh key is appended (Python dict assignment order). -/
def insertEntry (index : List (String × CacheEntry)) (k : String) (e : CacheEntry) :
    List (String × CacheEntry) :=
  if index.any (fun kv => kv.1 == k) then
    index.map (fun kv => if kv.1 == k then (k, e) else kv)
  else index ++ [(k, e)]

/-- The store: its configuration and the index it exclusively owns. -/
structure Cache where
  config : CacheConfig
  index : List (String × CacheEntry)
deriving Repr, DecidableEq

/-- Response reconstructed from a stored entry (spec section 4.4). -/
def reconstructResponse (e : CacheEntry) : Response :=
  { status_code := e.status_code
    resp_headers := e.response_headers
    content := e.response_body
    req_method := e.method
    req_url := e.url
    req_headers := e.headers
    req_params := e.params
    req_body := e.body }

/-- Outcome of a lookup: the reconstructed response if any, whether the index
was consulted, and the store afterwards (an expired entry found during lookup
is lazily removed). -/
structure LookupResult where
  response : Option Response
  consulted : Bool
  cache : Cache
deriving Repr, DecidableEq

/-- Modelled from the spec: `get_cached_response`, section 4.4 — policy gate
first (no index touch on a non-cacheable request), then index lookup, lazy
removal of an expired entry, reconstruction otherwise. `failRead` injects a
storage read failure; section 7 requires it to be caught and degraded to a
miss for that operation. An entry is expired iff `expires_at ≤ now`. -/
def get_cached_response (failRead : Bool) (c : Cache) (now : Nat) (method url : String)
    (headers params : Option (List (String × String))) (body : Option String) :
    LookupResult :=
  if !(should_cache_request c.config method headers body) then ⟨none, false, c⟩
  else
    let key := generate_cache_key method url headers params body
    if failRead then ⟨none, true, c⟩
    else
      match findEntry c.index key with
      | none => ⟨none, true, c⟩
      | some e =>
        if e.expires_at ≤ now then ⟨none, true, { c with index := removeKey c.index key }⟩
        else ⟨some (reconstructResponse e), true, c⟩

/-- The fingerprint a stored response is indexed under, re-derived from the
response's originating request attributes. -/
def keyOf (r : Response) : String :=
  generate_cache_key r.req_method r.req_url r.req_headers r.req_params r.req_body

/-- The entry `cache_response` builds: `cached_at = now`,
`expires_at = now + ttl` with `ttl` defaulting to `config.default_ttl`. -/
def entryOf (cfg : CacheConfig) (now : Nat) (r : Response) (ttl : Option Nat) : CacheEntry :=
  { url := r.req_url
    method := r.req_method
    headers := r.req_headers
    params := r.req_params
    body := r.req_body
    status_code := r.status_code
    response_headers := r.resp_headers
    response_body := r.content
    cached_at := now
    expires_at := now + ttl.getD cfg.default_ttl }

/-- Modelled from the spec: `cache_response`, section 4.4 — no-op unless the
policy accepts the originating request, the status is 2xx and the body is
under the 1 MiB ceiling; otherwise insert then evict to bounds. `failWrite`
injects a storage write failure; section 7 requires it to degrade to a
skipped store. -/
def cache_response (failWrite : Bool) (c : Cache) (now : Nat) (resp : Response)
    (ttl : Option Nat) : Cache :=
  if !(should_cache_request c.config resp.req_method resp.req_headers resp.req_body) then c
  else if !(decide (200 ≤ resp.status_code) && decide (resp.status_code < 300)) then c
  else if !(decide (resp.content.length < 1048576)) then c
  else if failWrite then c
  else { c with index := enforceBounds c.config (insertEntry c.index (keyOf resp) (entryOf c.config now resp ttl)) }

/-! ## HTTP client integration (client.py lines 27-209) -/

/-- The client fields the request pipeline reads (client.py lines 52-57):
`self.enable_cache` and `self.cache` (None when caching is turned off). -/
structure HttpClient where
  enable_cache : Bool
  cache : Option Cache
deriving Repr, DecidableEq

/-- `HttpClient.__init__` (client.py line 57):
`self.cache = get_cache() if enable_cache else None`. -/
def mkClient (globalCache : Cache) (enable_cache : Bool) : HttpClient :=
  ⟨enable_cache, if enable_cache then some globalCache else none⟩

/-- What `HttpClient.request` does at the end: return the response, or raise
(`raise_for_status` plus the blanket exception translation, client.py lines
182-209) for a 4xx/5xx status. -/
inductive ReqOutcome where
  | ok (r : Response)
  | requestError (status : Nat)
deriving Repr, DecidableEq

/-- The network response with the originating request attached, as httpx
builds it from the arguments of `client.request` (client.py lines 162-170). -/
def respWith (net : Response) (method url : String)
    (headers params : Option (List (String × String))) (body : Option String) : Response :=
  { net with
    req_method := method
    req_url := url
    req_headers := headers
    req_params := params
    req_body := body }

/-- `response.raise_for_status()`: a 4xx/5xx response becomes a raised
error (re-raised as RequestError by the blanket handler), anything below
400 is returned. -/
def netOutcome (resp : Response) : ReqOutcome :=
  if resp.status_code < 400 then ReqOutcome.ok resp
  else ReqOutcome.requestError resp.status_code

/-- The store gate of client.py lines 175-179: 2xx status, then
`method.upper() == "GET"` and content under 1 MiB. -/
def storeGate (method : String) (resp : Response) : Bool :=
  decide (200 ≤ resp.status_code) && decide (resp.status_code < 300)
    && (pyUpper method == "GET") && decide (resp.content.length < 1048576)

/-- Everything observable about one `HttpClient.request` run: its outcome,
whether the underlying httpx client was invoked, whether `cache_response`
was called, whether the lookup consulted the index, and the client's cache
afterwards. -/
structure RequestResult where
  outcome : ReqOutcome
  networkCalled : Bool
  storeCalled : Bool
  lookupConsultedIndex : Bool
  cache : Option Cache
deriving Repr, DecidableEq

/-- `HttpClient.request` (client.py lines 107-209): prepare `cache_body`,
consult the cache when `self.cache and self.enable_cache`, short-circuit on
a hit, otherwise perform the network call (`net` is what the network
returns), store through the gate of lines 174-180, and finish with
`raise_for_status`. `failRead`/`failWrite` are the injected storage
failures of the store model. -/
def HttpClient.request (failRead failWrite : Bool) (c : HttpClient) (now : Nat)
    (method url : String) (headers params : Option (List (String × String)))
    (json_data data : Option (List (String × String))) (net : Response) : RequestResult :=
  let cache_body := cacheBody json_data data
  let resp := respWith net method url headers params cache_body
  match c.cache, c.enable_cache with
  | some cache0, true =>
    let lr := get_cached_response failRead cache0 now method url headers params cache_body
    match lr.response with
    | some r => ⟨ReqOutcome.ok r, false, false, lr.consulted, some lr.cache⟩
    | none =>
      let doStore := storeGate method resp
      let cache2 := if doStore then cache_response failWrite lr.cache now resp none else lr.cache
      ⟨netOutcome resp, true, doStore, lr.consulted, some cache2⟩
  | _, _ => ⟨netOutcome resp, true, false, false, c.cache⟩

/-! ## CLI `cache config` action (main.py lines 831-853) -/

/-- The options of the `cache` command relevant to the `config` action
(main.py lines 784-801). There is no option for `cache_post`. -/
structure CacheCliOptions where
  ttl : Option Nat := none
  max_entries : Option Nat := none
  max_size : Option Nat := none
  enable : Option Bool := none
  cache_get : Option Bool := none
  cache_graphql : Option Bool := none
deriving Repr, DecidableEq

/-- The `config` action (main.py lines 831-853): dump the current config,
overwrite each field whose option was supplied, and build the replacement
configuration installed through `set_cache_config`. -/
def cacheConfigAction (current : CacheConfig) (o : CacheCliOptions) : CacheConfig :=
  let d1 := match o.ttl with
    | some v => { current with default_ttl := v }
    | none => current
  let d2 := match o.max_entries with
    | some v => { d1 with max_entries := v }
    | none => d1
  let d3 := match o.max_size with
    | some v => { d2 with max_size_mb := v }
    | none => d2
  let d4 := match o.enable with
    | some v => { d3 with enabled := v }
    | none => d3
  let d5 := match o.cache_get with
    | some v => { d4 with cache_get := v }
    | none => d4
  match o.cache_graphql with
  | some v => { d5 with cache_graphql := v }
  | none => d5

/-! ## Concrete fixtures used by witnesses and counterexamples -/

/-- The 200 JSON exchange the tests cache (`test_cache_and_retrieve_response`). -/
def urlW : String := "https://api.example.com/users"

/-- A stored entry for `urlW`, cached at time 0 and valid until time 10. -/
def entryW : CacheEntry :=
  ⟨urlW, "GET", none, none, none, 200,
   [("Content-Type", "application/json")], "\x7b\x22users\x22: []\x7d", 0, 10⟩

/-- A store already holding `entryW` under its fingerprint. -/
def cacheHitW : Cache := ⟨{}, [(generate_cache_key "GET" urlW none none none, entryW)]⟩

/-- An empty store with the default configuration. -/
def cacheEmptyW : Cache := ⟨{}, []⟩

/-- A live 200 network response for `urlW`. -/
def netW : Response := ⟨200, [], "live", "GET", urlW, none, none, none⟩

/-- JSON content-type headers as the cache tests send them. -/
def hdrsJson : Option (List (String × String)) := some [("Content-Type", "application/json")]

/-- The GraphQL query json_data of a cacheable POST. -/
def gqlJsonData : Option (List (String × String)) := some [("query", "query users")]

/-- A fully qualifying live response: 200 and far below the size ceiling. -/
def net200 : Response := ⟨200, [], "ok", "", "", none, none, none⟩

/-- Eligibility of a response for an actual store, as `cache_response`
checks it. -/
def respEligible (cfg : CacheConfig) (r : Response) : Prop :=
  should_cache_request cfg r.req_method r.req_headers r.req_body = true ∧
  200 ≤ r.status_code ∧ r.status_code < 300 ∧ r.content.length < 1048576

instance (cfg : CacheConfig) (r : Response) : Decidable (respEligible cfg r) := by
  unfold respEligible
  infer_instance

/-- Store a sequence of responses at strictly increasing times (the tests
sleep between stores so that `cached_at` differs). -/
def storeAll : Cache → Nat → List Response → Cache
  | c, _, [] => c
  | c, now, r :: rs => storeAll (cache_response false c now r none) (now + 1) rs

/-- The index entries those stores create, in insertion order. -/
def mkEntries (cfg : CacheConfig) : Nat → List Response → List (String × CacheEntry)
  | _, [] => []
  | now, r :: rs => (keyOf r, entryOf cfg now r none) :: mkEntries cfg (now + 1) rs

/-- A configuration with room for two entries (`test_max_entries_cleanup`). -/
def cfgW6 : CacheConfig := { max_entries := 2 }

/-- First of three distinct GET responses stored in sequence. -/
def rA : Response := ⟨200, [], "a", "GET", "https://api.example.com/users/0", none, none, none⟩

/-- Second of three distinct GET responses stored in sequence. -/
def rB : Response := ⟨200, [], "b", "GET", "https://api.example.com/users/1", none, none, none⟩

/-- Third of three distinct GET responses stored in sequence. -/
def rC : Response := ⟨200, [], "c", "GET", "https://api.example.com/users/2", none, none, none⟩

/-! ## Claims about the pipeline body preparation and the CLI config action -/

theorem removeOldest_length : ∀ (l : List (String × CacheEntry)), l ≠ [] →
    (removeOldest l).length + 1 = l.length := by
  intro l
  induction l with
  | nil => intro h; exact absurd rfl h
  | cons e rest ih =>
    intro _
    by_cases h : rest.all (fun x => e.2.cached_at ≤ x.2.cached_at)
    · simp [removeOldest, h]
    · have hrest : rest ≠ [] := by
        intro hnil; subst hnil; simp [List.all] at h
      rw [Bool.not_eq_true] at h
      simp [removeOldest, h]
      have := ih hrest
      omega

/-- Claim C10: passing `json_data` equal to the empty dict makes the body
used for the cache fingerprint None, exactly as if no `json_data` were
passed, because `client.py` tests body presence by truthiness; the cache key
is therefore the same for both requests. -/
theorem c10_empty_json_body_same_fingerprint :
    ∀ (data : Option (List (String × String))) (method url : String)
      (headers params : Option (List (String × String))),
    cacheBody (some []) data = cacheBody none data ∧
    generate_cache_key method url headers params (cacheBody (some []) data)
      = generate_cache_key method url headers params (cacheBody none data) := by
  intro data method url headers params
  have h : cacheBody (some []) data = cacheBody none data := by
    simp [cacheBody, optTruthy]
  exact ⟨h, by rw [h]⟩

/-- Claim C8: the `cache config` action installs a whole replacement built
from the previous configuration: a field with a supplied option takes the
supplied value, every other field — including `cache_post` and `cache_dir`,
for which no option exists — keeps the previously active value. -/
theorem c8_config_replace_in_whole :
    ∀ (current : CacheConfig) (o : CacheCliOptions),
    (cacheConfigAction current o).default_ttl = o.ttl.getD current.default_ttl ∧
    (cacheConfigAction current o).max_entries = o.max_entries.getD current.max_entries ∧
    (cacheConfigAction current o).max_size_mb = o.max_size.getD current.max_size_mb ∧
    (cacheConfigAction current o).enabled = o.enable.getD current.enabled ∧
    (cacheConfigAction current o).cache_get = o.cache_get.getD current.cache_get ∧
    (cacheConfigAction current o).cache_graphql = o.cache_graphql.getD current.cache_graphql ∧
    (cacheConfigAction current o).cache_post = current.cache_post ∧
    (cacheConfigAction current o).cache_dir = current.cache_dir := by
  intro current o
  obtain ⟨t, me, ms, en, cg, cgl⟩ := o
  cases t <;> cases me <;> cases ms <;> cases en <;> cases cg <;> cases cgl <;>
    simp [cacheConfigAction]

/-- Helper: no `cache config` invocation ever changes `cache_post` — the
command has no option for it (main.py lines 784-801). -/
theorem cacheConfigAction_keeps_cache_post (current : CacheConfig) (o : CacheCliOptions) :
    (cacheConfigAction current o).cache_post = current.cache_post := by
  obtain ⟨t, me, ms, en, cg, cgl⟩ := o
  cases t <;> cases me <;> cases ms <;> cases en <;> cases cg <;> cases cgl <;>
    simp [cacheConfigAction]

/-- Claim C9 is false: it asserts that every per-method flag of CacheConfig
(`cache_get`, `cache_post`, `cache_graphql`) is updatable by some
`cache config` invocation, but starting from the default configuration no
invocation changes `cache_post` at all. -/
theorem c9_counterexample_no_cache_post_option :
    ¬ ∃ (o : CacheCliOptions),
      (cacheConfigAction {} o).cache_post ≠ ({} : CacheConfig).cache_post := by
  rintro ⟨o, h⟩
  exact h (cacheConfigAction_keeps_cache_post {} o)

/-- Claim C9 as amended: the `cache config` action can apply ttl,
max-entries, max-size, enable/disable, and the per-method toggles
`cache_get` and `cache_graphql`; `cache_post` has no CLI option and is
never changed by any invocation. -/
theorem c9_amended_updatable_fields :
    (∀ (cur : CacheConfig) (v : Nat),
        (cacheConfigAction cur { ttl := some v }).default_ttl = v) ∧
    (∀ (cur : CacheConfig) (v : Nat),
        (cacheConfigAction cur { max_entries := some v }).max_entries = v) ∧
    (∀ (cur : CacheConfig) (v : Nat),
        (cacheConfigAction cur { max_size := some v }).max_size_mb = v) ∧
    (∀ (cur : CacheConfig) (v : Bool),
        (cacheConfigAction cur { enable := some v }).enabled = v) ∧
    (∀ (cur : CacheConfig) (v : Bool),
        (cacheConfigAction cur { cache_get := some v }).cache_get = v) ∧
    (∀ (cur : CacheConfig) (v : Bool),
        (cacheConfigAction cur { cache_graphql := some v }).cache_graphql = v) ∧
    (∀ (cur : CacheConfig) (o : CacheCliOptions),
        (cacheConfigAction cur o).cache_post = cur.cache_post) :=
  ⟨fun _ _ => rfl, fun _ _ => rfl, fun _ _ => rfl, fun _ _ => rfl, fun _ _ => rfl,
   fun _ _ => rfl, fun cur o => cacheConfigAction_keeps_cache_post cur o⟩

/-- Claim C5: a client constructed with `enable_cache = false` holds no
cache at all: a request through it never consults the cache, never
populates it, and always hands back the live network outcome — whatever
`CacheConfig.enabled` says in the global cache it declined to take. -/
theorem c5_enable_cache_false_bypasses_cache :
    ∀ (failRead failWrite : Bool) (g : Cache) (now : Nat) (method url : String)
      (headers params json_data data : Option (List (String × String))) (net : Response),
    (mkClient g false).request failRead failWrite now method url headers params json_data data net
      = ⟨netOutcome (respWith net method url headers params (cacheBody json_data data)),
         true, false, false, none⟩ := by
  intro failRead failWrite g now method url headers params json_data data net
  rfl

/-! ## Claims about the request pipeline -/

/-- Helper: a lookup whose storage read fails yields a miss. -/
theorem get_cached_response_failRead (c0 : Cache) (now : Nat) (m u : String)
    (h p : Option (List (String × String))) (b : Option String) :
    (get_cached_response true c0 now m u h p b).response = none := by
  unfold get_cached_response
  split <;> rfl

/-- Helper: `respWith` does not touch the response's status code. -/
theorem respWith_status (net : Response) (m u : String)
    (h p : Option (List (String × String))) (b : Option String) :
    (respWith net m u h p b).status_code = net.status_code := rfl

/-- Helper: `raise_for_status` either returns the response or raises for its
own 4xx/5xx status — the split the pipeline ends with. -/
theorem netOutcome_cases (resp : Response) :
    (∃ r, netOutcome resp = ReqOutcome.ok r) ∨
    (netOutcome resp = ReqOutcome.requestError resp.status_code ∧ 400 ≤ resp.status_code) := by
  by_cases h : resp.status_code < 400
  · exact Or.inl ⟨resp, by simp [netOutcome, h]⟩
  · exact Or.inr ⟨by simp [netOutcome, h], by omega⟩

/-- Claim C1: cache-internal failures never abort a request or change what
the caller gets. First: the outcome and the decision to call the network
are identical whether or not the cache store write fails. Second: when the
cache read fails, the request behaves exactly like a request through a
client whose caching is disabled. Third: every outcome is either a returned
response or the 4xx/5xx error of the live network response — a cache
failure is never an outcome. -/
theorem c1_cache_failures_never_abort :
    ∀ (failRead failWrite failWrite2 : Bool) (c : HttpClient) (now : Nat) (method url : String)
      (headers params json_data data : Option (List (String × String))) (net : Response),
    ((c.request failRead failWrite now method url headers params json_data data net).outcome
       = (c.request failRead failWrite2 now method url headers params json_data data net).outcome ∧
     (c.request failRead failWrite now method url headers params json_data data net).networkCalled
       = (c.request failRead failWrite2 now method url headers params json_data data net).networkCalled) ∧
    ((c.request true failWrite now method url headers params json_data data net).outcome
       = (HttpClient.request true failWrite ⟨false, none⟩ now method url headers params
           json_data data net).outcome ∧
     (c.request true failWrite now method url headers params json_data data net).networkCalled
       = true) ∧
    ((∃ r : Response, (c.request failRead failWrite now method url headers params json_data
        data net).outcome = ReqOutcome.ok r) ∨
     ((c.request failRead failWrite now method url headers params json_data data net).outcome
        = ReqOutcome.requestError net.status_code ∧ 400 ≤ net.status_code)) := by
  intro fr fw fw2 c now method url headers params json_data data net
  obtain ⟨ec, oc⟩ := c
  refine ⟨?_, ?_, ?_⟩
  · cases oc with
    | none => exact ⟨rfl, rfl⟩
    | some cache0 =>
      cases ec with
      | false => exact ⟨rfl, rfl⟩
      | true =>
        cases hresp : (get_cached_response fr cache0 now method url headers params
            (cacheBody json_data data)).response with
        | none => simp [HttpClient.request, hresp]
        | some r => simp [HttpClient.request, hresp]
  · cases oc with
    | none => exact ⟨rfl, rfl⟩
    | some cache0 =>
      cases ec with
      | false => exact ⟨rfl, rfl⟩
      | true =>
        have hnone := get_cached_response_failRead cache0 now method url headers params
          (cacheBody json_data data)
        exact ⟨by simp [HttpClient.request, hnone], by simp [HttpClient.request, hnone]⟩
  · cases oc with
    | none =>
      simpa [HttpClient.request, respWith_status] using
        netOutcome_cases (respWith net method url headers params (cacheBody json_data data))
    | some cache0 =>
      cases ec with
      | false =>
        simpa [HttpClient.request, respWith_status] using
          netOutcome_cases (respWith net method url headers params (cacheBody json_data data))
      | true =>
        cases hresp : (get_cached_response fr cache0 now method url headers params
            (cacheBody json_data data)).response with
        | none =>
          simpa [HttpClient.request, hresp, respWith_status] using
            netOutcome_cases (respWith net method url headers params (cacheBody json_data data))
        | some r => exact Or.inl ⟨r, by simp [HttpClient.request, hresp]⟩

/-- Claim C3: a non-none cached response short-circuits the request — the
client returns exactly that response, the network is never invoked, and no
store happens. -/
theorem c3_cache_hit_short_circuits :
    ∀ (failRead failWrite : Bool) (c : HttpClient) (cache0 : Cache) (now : Nat)
      (method url : String) (headers params json_data data : Option (List (String × String)))
      (net r : Response),
    c.cache = some cache0 → c.enable_cache = true →
    (get_cached_response failRead cache0 now method url headers params
        (cacheBody json_data data)).response = some r →
    c.request failRead failWrite now method url headers params json_data data net
      = ⟨ReqOutcome.ok r, false, false,
         (get_cached_response failRead cache0 now method url headers params
             (cacheBody json_data data)).consulted,
         some (get_cached_response failRead cache0 now method url headers params
             (cacheBody json_data data)).cache⟩ := by
  intro fr fw c cache0 now method url headers params json_data data net r hc he hresp
  obtain ⟨ec, oc⟩ := c
  have hc2 : oc = some cache0 := hc
  have he2 : ec = true := he
  subst hc2
  subst he2
  simp [HttpClient.request, hresp]

/-- Witness for C3: at time 5 the stored entry is unexpired, the lookup
hits, and the request returns the reconstructed response without a network
call. -/
theorem c3_witness :
    (get_cached_response false cacheHitW 5 "GET" urlW none none (cacheBody none none)).response
      = some (reconstructResponse entryW) ∧
    (mkClient cacheHitW true).request false false 5 "GET" urlW none none none none netW
      = ⟨ReqOutcome.ok (reconstructResponse entryW), false, false,
         (get_cached_response false cacheHitW 5 "GET" urlW none none (cacheBody none none)).consulted,
         some (get_cached_response false cacheHitW 5 "GET" urlW none none (cacheBody none none)).cache⟩ :=
  ⟨by decide,
   c3_cache_hit_short_circuits false false (mkClient cacheHitW true) cacheHitW 5 "GET" urlW
     none none none none netW (reconstructResponse entryW) rfl rfl (by decide)⟩

/-- Claim C4: the pipeline calls `cache_response` only when the network
response has a 2xx status, the method uppercases to GET, and the content is
under 1 MiB. -/
theorem c4_store_only_2xx_get_small :
    ∀ (failRead failWrite : Bool) (c : HttpClient) (now : Nat) (method url : String)
      (headers params json_data data : Option (List (String × String))) (net : Response),
    (c.request failRead failWrite now method url headers params json_data data net).storeCalled
      = true →
    (200 ≤ net.status_code ∧ net.status_code < 300) ∧ pyUpper method = "GET" ∧
      net.content.length < 1048576 := by
  intro fr fw c now method url headers params json_data data net h
  obtain ⟨ec, oc⟩ := c
  cases oc with
  | none => exact absurd h (by simp [HttpClient.request])
  | some cache0 =>
    cases ec with
    | false => exact absurd h (by simp [HttpClient.request])
    | true =>
      cases hresp : (get_cached_response fr cache0 now method url headers params
          (cacheBody json_data data)).response with
      | some r => simp [HttpClient.request, hresp] at h
      | none =>
        simp [HttpClient.request, hresp, storeGate, respWith] at h
        tauto

/-- Witness for C4: a GET request through an empty cache with a 200 response
does call the store, and the three gate conditions hold for it. -/
theorem c4_witness :
    ((mkClient cacheEmptyW true).request false false 0 "GET" urlW none none none none netW).storeCalled
      = true ∧
    ((200 ≤ netW.status_code ∧ netW.status_code < 300) ∧ pyUpper "GET" = "GET" ∧
      netW.content.length < 1048576) :=
  ⟨by decide,
   c4_store_only_2xx_get_small false false (mkClient cacheEmptyW true) 0 "GET" urlW
     none none none none netW (by decide)⟩

/-! ## Claims about the cacheability policy and the lookup/store relation -/

/-- Helper: "POST" is not "GET". -/
theorem post_beq_get : (("POST" : String) == "GET") = false := by decide

/-- Helper: "POST" equals itself. -/
theorem post_beq_post : (("POST" : String) == "POST") = true := by decide

/-- Claim C7: under every configuration a POST whose body is detected as a
GraphQL mutation — likewise a subscription — is never cacheable, even with
`cache_graphql` and `cache_post` enabled; a POST whose body's root
operation is a query is cacheable whenever the cache is enabled, the
payload is JSON and `cache_graphql` is on. -/
theorem c7_graphql_write_ops_never_cached :
    ∀ (cfg : CacheConfig) (headers : Option (List (String × String))) (body : String),
    (bodyOperation (some body) = some GqlOp.mutation →
        should_cache_request cfg "POST" headers (some body) = false) ∧
    (bodyOperation (some body) = some GqlOp.subscription →
        should_cache_request cfg "POST" headers (some body) = false) ∧
    (cfg.enabled = true → cfg.cache_graphql = true → isJsonContentType headers = true →
        bodyOperation (some body) = some GqlOp.query →
        should_cache_request cfg "POST" headers (some body) = true) := by
  intro cfg headers body
  refine ⟨?_, ?_, ?_⟩
  · intro hop
    simp [should_cache_request, isGraphQLQueryPayload, isGraphQLWrite, isQueryOp, isWriteOp,
      hop, post_beq_get, post_beq_post]
  · intro hop
    simp [should_cache_request, isGraphQLQueryPayload, isGraphQLWrite, isQueryOp, isWriteOp,
      hop, post_beq_get, post_beq_post]
  · intro hen hgq hjson hop
    simp [should_cache_request, isGraphQLQueryPayload, isQueryOp,
      hen, hgq, hjson, hop, post_beq_get, post_beq_post]

/-- Witness for C7: the mutation and subscription bodies are rejected even
with `cache_post := true`, the query body is accepted by the defaults. -/
theorem c7_witness :
    should_cache_request { cache_post := true } "POST" hdrsJson
      (some "\x7b\x22query\x22: \x22mutation createUser\x22\x7d") = false ∧
    should_cache_request { cache_post := true } "POST" hdrsJson
      (some "\x7b\x22query\x22: \x22subscription onUser\x22\x7d") = false ∧
    should_cache_request {} "POST" hdrsJson
      (some "\x7b\x22query\x22: \x22query users\x22\x7d") = true :=
  ⟨(c7_graphql_write_ops_never_cached { cache_post := true } hdrsJson
      "\x7b\x22query\x22: \x22mutation createUser\x22\x7d").1 (by decide),
   (c7_graphql_write_ops_never_cached { cache_post := true } hdrsJson
      "\x7b\x22query\x22: \x22subscription onUser\x22\x7d").2.1 (by decide),
   (c7_graphql_write_ops_never_cached {} hdrsJson
      "\x7b\x22query\x22: \x22query users\x22\x7d").2.2 rfl rfl (by decide) (by decide)⟩

/-- Claim C2 is false: a GraphQL POST query under the default configuration
is looked up (the lookup consults the index), yet even a fully qualifying
2xx small response to it is never stored — the pipeline's store gate admits
only GET, so this request shape is looked up but can never be stored. -/
theorem c2_counterexample_graphql_lookup_never_stored :
    (HttpClient.request false false (mkClient cacheEmptyW true) 0 "POST"
        "https://api.example.com/graphql" hdrsJson none gqlJsonData none
        net200).lookupConsultedIndex = true ∧
    (HttpClient.request false false (mkClient cacheEmptyW true) 0 "POST"
        "https://api.example.com/graphql" hdrsJson none gqlJsonData none
        net200).storeCalled = false ∧
    (HttpClient.request false false (mkClient cacheEmptyW true) 0 "POST"
        "https://api.example.com/graphql" hdrsJson none gqlJsonData none
        net200).cache = some cacheEmptyW :=
  ⟨by decide, by decide, by decide⟩

/-- Helper: when `cache_response` changes the store at all, the policy
accepted the response's originating request — every ineligible branch is a
no-op. -/
theorem cache_response_ne_imp_policy (fw : Bool) (c : Cache) (now : Nat) (resp : Response)
    (ttl : Option Nat) :
    cache_response fw c now resp ttl ≠ c →
    should_cache_request c.config resp.req_method resp.req_headers resp.req_body = true := by
  intro hne
  by_contra h
  apply hne
  rw [Bool.not_eq_true] at h
  simp [cache_response, h]

/-- Helper: a lookup never changes the configuration of the store. -/
theorem get_cached_response_config (fr : Bool) (c0 : Cache) (now : Nat) (m u : String)
    (h p : Option (List (String × String))) (b : Option String) :
    (get_cached_response fr c0 now m u h p b).cache.config = c0.config := by
  simp only [get_cached_response]
  repeat' first | rfl | split

/-- Helper: whenever the policy accepts a request, its lookup consults the
index. -/
theorem get_cached_response_consulted (fr : Bool) (c0 : Cache) (now : Nat) (m u : String)
    (h p : Option (List (String × String))) (b : Option String)
    (hpol : should_cache_request c0.config m h b = true) :
    (get_cached_response fr c0 now m u h p b).consulted = true := by
  simp only [get_cached_response, hpol, Bool.not_true, Bool.false_eq_true, if_false]
  repeat' first | rfl | split

/-- Claim C2 as amended: lookup and store decisions both go through
`should_cache_request`, and the pipeline narrows stores further to GET
responses; hence every request whose store step actually changes the cache
is one whose lookup consulted the index (store implies lookup), while the
converse fails — a cacheable GraphQL POST query is looked up but can never
be stored. -/
theorem c2_amended_actual_store_implies_lookup :
    ∀ (failRead : Bool) (c : HttpClient) (cache0 : Cache) (now : Nat) (method url : String)
      (headers params json_data data : Option (List (String × String))) (net : Response),
    c.cache = some cache0 → c.enable_cache = true →
    (c.request failRead false now method url headers params json_data data net).cache
      ≠ some (get_cached_response failRead cache0 now method url headers params
          (cacheBody json_data data)).cache →
    (get_cached_response failRead cache0 now method url headers params
        (cacheBody json_data data)).consulted = true := by
  intro fr c cache0 now method url headers params json_data data net hc he hne
  obtain ⟨ec, oc⟩ := c
  have hc2 : oc = some cache0 := hc
  have he2 : ec = true := he
  subst hc2; subst he2
  cases hresp : (get_cached_response fr cache0 now method url headers params
      (cacheBody json_data data)).response with
  | some r => exact absurd (by simp [HttpClient.request, hresp]) hne
  | none =>
    by_cases hds : storeGate method (respWith net method url headers params
        (cacheBody json_data data)) = true
    · have hst : cache_response false
          (get_cached_response fr cache0 now method url headers params
            (cacheBody json_data data)).cache now
          (respWith net method url headers params (cacheBody json_data data)) none
          ≠ (get_cached_response fr cache0 now method url headers params
            (cacheBody json_data data)).cache := by
        intro heq
        apply hne
        simp [HttpClient.request, hresp, hds, heq]
      have hpol := cache_response_ne_imp_policy false _ now _ none hst
      rw [get_cached_response_config] at hpol
      exact get_cached_response_consulted fr cache0 now method url headers params _ hpol
    · exact absurd (by simp [HttpClient.request, hresp, hds]) hne

/-- Witness for the amended C2: a GET through an empty cache stores its 200
response (the cache changes), and that request's lookup did consult the
index. -/
theorem c2_amended_witness :
    ((mkClient cacheEmptyW true).request false false 0 "GET" urlW none none none none
        netW).cache
      ≠ some (get_cached_response false cacheEmptyW 0 "GET" urlW none none
          (cacheBody none none)).cache ∧
    (get_cached_response false cacheEmptyW 0 "GET" urlW none none
        (cacheBody none none)).consulted = true :=
  ⟨by decide,
   c2_amended_actual_store_implies_lookup false (mkClient cacheEmptyW true) cacheEmptyW 0
     "GET" urlW none none none none netW rfl rfl (by decide)⟩

/-! ## Claim C6: bounds and oldest-first eviction -/

/-- Helper: the empty index is always within bounds. -/
theorem withinBounds_nil (cfg : CacheConfig) : withinBounds cfg [] = true := by
  simp [withinBounds, totalSize]

/-- Helper: eviction is a no-op on an index already within bounds. -/
theorem enforceBounds_of_within (cfg : CacheConfig) (l : List (String × CacheEntry))
    (h : withinBounds cfg l = true) : enforceBounds cfg l = l := by
  simp [enforceBounds, evictLoop, h]

/-- Helper: with fuel above the list length the eviction loop always lands
within bounds. -/
theorem evictLoop_within (cfg : CacheConfig) :
    ∀ (fuel : Nat) (l : List (String × CacheEntry)), l.length < fuel →
    withinBounds cfg (evictLoop cfg fuel l) = true := by
  intro fuel
  induction fuel with
  | zero => intro l hl; omega
  | succ n ih =>
    intro l hl
    by_cases hw : withinBounds cfg l = true
    · simp [evictLoop, hw]
    · have hne : l ≠ [] := by
        intro h0; subst h0; exact hw (withinBounds_nil cfg)
      have hlen := removeOldest_length l hne
      rw [Bool.not_eq_true] at hw
      simp only [evictLoop, hw, Bool.false_eq_true, if_false]
      apply ih
      omega

/-- Helper: after `enforceBounds` both bounds hold, whatever the input. -/
theorem withinBounds_enforceBounds (cfg : CacheConfig) (l : List (String × CacheEntry)) :
    withinBounds cfg (enforceBounds cfg l) = true :=
  evictLoop_within cfg (l.length + 1) l (by omega)

/-- Helper: inserting a fresh key appends the entry. -/
theorem insertEntry_of_not_mem (l : List (String × CacheEntry)) (k : String) (e : CacheEntry)
    (h : k ∉ l.map Prod.fst) : insertEntry l k e = l ++ [(k, e)] := by
  have ha : l.any (fun kv => kv.1 == k) = false := by
    rw [List.any_eq_false]
    intro kv hkv
    simp only [beq_iff_eq]
    intro heq
    exact h (heq ▸ List.mem_map_of_mem Prod.fst hkv)
  simp [insertEntry, ha]

/-- Helper: aggregate size distributes over append. -/
theorem totalSize_append (l1 l2 : List (String × CacheEntry)) :
    totalSize (l1 ++ l2) = totalSize l1 + totalSize l2 := by
  simp [totalSize]

/-- Helper: aggregate size of one entry. -/
theorem totalSize_singleton (k : String) (e : CacheEntry) :
    totalSize [(k, e)] = entrySize e := by
  simp [totalSize]

/-- Helper: aggregate size of a cons. -/
theorem totalSize_cons (kv : String × CacheEntry) (l : List (String × CacheEntry)) :
    totalSize (kv :: l) = entrySize kv.2 + totalSize l := by
  simp [totalSize]

/-- Helper: the two bound checks, packaged. -/
theorem withinBounds_of (cfg : CacheConfig) (l : List (String × CacheEntry))
    (h1 : l.length ≤ cfg.max_entries) (h2 : totalSize l ≤ maxSizeBytes cfg) :
    withinBounds cfg l = true := by
  unfold withinBounds
  rw [decide_eq_true h1, decide_eq_true h2]
  rfl

/-- Helper: on an eligible response `cache_response` inserts the entry and
evicts to bounds. -/
theorem cache_response_writes (c : Cache) (now : Nat) (r : Response) (ttl : Option Nat)
    (helig : respEligible c.config r) :
    cache_response false c now r ttl
      = ⟨c.config, enforceBounds c.config (insertEntry c.index (keyOf r) (entryOf c.config now r ttl))⟩ := by
  obtain ⟨cfg0, idx⟩ := c
  obtain ⟨h1, h2, h3, h4⟩ := helig
  simp [cache_response, h1, decide_eq_true h2, decide_eq_true h3, decide_eq_true h4]

/-- Helper: the keys of the created entries are the response fingerprints. -/
theorem mkEntries_keys (cfg : CacheConfig) :
    ∀ (now : Nat) (rs : List Response), (mkEntries cfg now rs).map Prod.fst = rs.map keyOf := by
  intro now rs
  induction rs generalizing now with
  | nil => rfl
  | cons r rs ih => simp [mkEntries, ih]

/-- Helper: one entry per stored response. -/
theorem mkEntries_length (cfg : CacheConfig) :
    ∀ (now : Nat) (rs : List Response), (mkEntries cfg now rs).length = rs.length := by
  intro now rs
  induction rs generalizing now with
  | nil => rfl
  | cons r rs ih => simp [mkEntries, ih]

/-- Helper: the created entries take exactly the responses' sizes. -/
theorem mkEntries_sizes (cfg : CacheConfig) :
    ∀ (now : Nat) (rs : List Response),
    totalSize (mkEntries cfg now rs) = (rs.map fun r => r.content.length).sum := by
  intro now rs
  induction rs generalizing now with
  | nil => rfl
  | cons r rs ih =>
    rw [mkEntries, totalSize_cons, ih (now + 1)]
    simp only [List.map_cons, List.sum_cons]
    rfl

/-- Helper: every created entry is cached at or after the starting time. -/
theorem mkEntries_times (cfg : CacheConfig) :
    ∀ (now : Nat) (rs : List Response) (kv : String × CacheEntry),
    kv ∈ mkEntries cfg now rs → now ≤ kv.2.cached_at := by
  intro now rs
  induction rs generalizing now with
  | nil => intro kv h; simp [mkEntries] at h
  | cons r rs ih =>
    intro kv h
    simp only [mkEntries, List.mem_cons] at h
    rcases h with h | h
    · subst h; simp [entryOf]
    · have := ih (now + 1) kv h; omega

/-- Helper: entry creation splits over append, with shifted times. -/
theorem mkEntries_append (cfg : CacheConfig) :
    ∀ (xs ys : List Response) (now : Nat),
    mkEntries cfg now (xs ++ ys) = mkEntries cfg now xs ++ mkEntries cfg (now + xs.length) ys := by
  intro xs
  induction xs with
  | nil => intro ys now; simp [mkEntries]
  | cons x xs ih =>
    intro ys now
    simp only [List.cons_append, mkEntries, List.length_cons, List.append_eq]
    rw [ih ys (now + 1)]
    have h : now + 1 + xs.length = now + (xs.length + 1) := by omega
    rw [h]

/-- Helper: storing a concatenation stores the pieces in sequence. -/
theorem storeAll_append :
    ∀ (xs ys : List Response) (c : Cache) (now : Nat),
    storeAll c now (xs ++ ys) = storeAll (storeAll c now xs) (now + xs.length) ys := by
  intro xs
  induction xs with
  | nil => intro ys c now; simp [storeAll]
  | cons x xs ih =>
    intro ys c now
    simp only [List.cons_append, storeAll, List.length_cons, List.append_eq]
    rw [ih ys (cache_response false c now x none) (now + 1)]
    have h : now + 1 + xs.length = now + (xs.length + 1) := by omega
    rw [h]

/-- Helper: while capacity and size allow, stores of eligible responses
with fresh keys just append entries, no eviction. -/
theorem storeAll_fill (cfg : CacheConfig) :
    ∀ (rs : List Response) (now : Nat) (l : List (String × CacheEntry)),
    (∀ r ∈ rs, respEligible cfg r) →
    (l.map Prod.fst ++ rs.map keyOf).Nodup →
    l.length + rs.length ≤ cfg.max_entries →
    totalSize l + (rs.map fun r => r.content.length).sum ≤ maxSizeBytes cfg →
    storeAll ⟨cfg, l⟩ now rs = ⟨cfg, l ++ mkEntries cfg now rs⟩ := by
  intro rs
  induction rs with
  | nil => intro now l _ _ _ _; simp [storeAll, mkEntries]
  | cons r rs ih =>
    intro now l helig hnd hcount hsize
    have helig_r : respEligible cfg r := helig r (by simp)
    simp only [List.map_cons] at hnd
    have hkey : keyOf r ∉ l.map Prod.fst := by
      rw [List.nodup_append] at hnd
      intro hmem
      exact hnd.2.2 hmem (by simp)
    have hsize1 : totalSize l + r.content.length + ((rs.map fun r => r.content.length).sum)
        ≤ maxSizeBytes cfg := by
      simp only [List.map_cons, List.sum_cons] at hsize
      omega
    have hlc : l.length + (rs.length + 1) ≤ cfg.max_entries := by
      simp only [List.length_cons] at hcount
      exact hcount
    have hw : withinBounds cfg (l ++ [(keyOf r, entryOf cfg now r none)]) = true := by
      apply withinBounds_of
      · simp only [List.length_append, List.length_singleton]
        omega
      · rw [totalSize_append, totalSize_singleton]
        have he : entrySize (entryOf cfg now r none) = r.content.length := rfl
        rw [he]
        omega
    have step : storeAll ⟨cfg, l⟩ now (r :: rs)
        = storeAll ⟨cfg, l ++ [(keyOf r, entryOf cfg now r none)]⟩ (now + 1) rs := by
      show storeAll (cache_response false ⟨cfg, l⟩ now r none) (now + 1) rs = _
      rw [cache_response_writes _ _ _ _ helig_r]
      show storeAll ⟨cfg, enforceBounds cfg (insertEntry l (keyOf r) (entryOf cfg now r none))⟩
          (now + 1) rs = _
      rw [insertEntry_of_not_mem _ _ _ hkey, enforceBounds_of_within _ _ hw]
    have ha : ∀ r' ∈ rs, respEligible cfg r' := fun r' hr' => helig r' (by simp [hr'])
    have hb : ((l ++ [(keyOf r, entryOf cfg now r none)]).map Prod.fst ++ rs.map keyOf).Nodup := by
      simp only [List.map_append, List.map_cons, List.map_nil]
      simpa [List.append_assoc] using hnd
    have hc : (l ++ [(keyOf r, entryOf cfg now r none)]).length + rs.length ≤ cfg.max_entries := by
      simp only [List.length_append, List.length_singleton]
      omega
    have hd : totalSize (l ++ [(keyOf r, entryOf cfg now r none)])
        + ((rs.map fun r => r.content.length).sum) ≤ maxSizeBytes cfg := by
      rw [totalSize_append, totalSize_singleton]
      have he : entrySize (entryOf cfg now r none) = r.content.length := rfl
      rw [he]
      omega
    rw [step, ih (now + 1) _ ha hb hc hd]
    simp [mkEntries, List.append_assoc]

/-- Helper: storing one entry into a full index whose head is oldest evicts
exactly that head. -/
theorem evict_once (cfg : CacheConfig) (e0 : String × CacheEntry)
    (l : List (String × CacheEntry))
    (hmin : ∀ kv ∈ l, e0.2.cached_at ≤ kv.2.cached_at)
    (hlen : l.length = cfg.max_entries)
    (hsize : totalSize (e0 :: l) ≤ maxSizeBytes cfg) :
    enforceBounds cfg (e0 :: l) = l := by
  have hcount : ¬((e0 :: l).length ≤ cfg.max_entries) := by
    simp only [List.length_cons, hlen]
    omega
  have hw : withinBounds cfg (e0 :: l) = false := by
    unfold withinBounds
    rw [decide_eq_false hcount]
    rfl
  have hro : removeOldest (e0 :: l) = l := by
    have hall : l.all (fun x => e0.2.cached_at ≤ x.2.cached_at) = true := by
      rw [List.all_eq_true]
      intro x hx
      exact decide_eq_true (hmin x hx)
    simp [removeOldest, hall]
  have hsplit : totalSize (e0 :: l) = entrySize e0.2 + totalSize l := totalSize_cons e0 l
  have hwl : withinBounds cfg l = true := by
    apply withinBounds_of
    · omega
    · omega
  show evictLoop cfg ((e0 :: l).length + 1) (e0 :: l) = l
  simp only [List.length_cons]
  simp [evictLoop, hw, hro, hwl]

/-- Claim C6: after every store operation the index satisfies both bounds
(count at most `max_entries`, aggregate size at most `max_size_mb`), and
storing N+1 distinct eligible entries with `max_entries = N` leaves exactly
the N entries created after the first one: the evicted entry is the one
with the oldest `cached_at`, every surviving entry being strictly newer. -/
theorem c6_store_bounds_and_oldest_eviction :
    (∀ (failWrite : Bool) (c : Cache) (now : Nat) (resp : Response) (ttl : Option Nat),
        withinBounds c.config c.index = true →
        withinBounds c.config (cache_response failWrite c now resp ttl).index = true) ∧
    (∀ (cfg : CacheConfig) (now : Nat) (resps : List Response),
        resps.length = cfg.max_entries + 1 →
        (∀ r ∈ resps, respEligible cfg r) →
        (resps.map keyOf).Nodup →
        (resps.map fun r => r.content.length).sum ≤ maxSizeBytes cfg →
        (storeAll ⟨cfg, []⟩ now resps).index = (mkEntries cfg now resps).drop 1 ∧
        (storeAll ⟨cfg, []⟩ now resps).index.length = cfg.max_entries ∧
        ∀ kv ∈ (storeAll ⟨cfg, []⟩ now resps).index, now < kv.2.cached_at) := by
  constructor
  · intro fw c now resp ttl hpre
    unfold cache_response
    repeat' split
    any_goals exact hpre
    exact withinBounds_enforceBounds c.config _
  · intro cfg now resps hlen helig hnd hsize
    have hne : resps ≠ [] := by
      intro h0
      rw [h0] at hlen
      simp at hlen
    obtain ⟨xs, y, rfl⟩ : ∃ xs y, resps = xs ++ [y] :=
      ⟨resps.dropLast, resps.getLast hne, (List.dropLast_append_getLast hne).symm⟩
    have hxslen : xs.length = cfg.max_entries := by
      simp only [List.length_append, List.length_cons, List.length_nil] at hlen
      omega
    simp only [List.map_append, List.map_cons, List.map_nil] at hnd
    rw [List.nodup_append] at hnd
    have hkey_y : keyOf y ∉ xs.map keyOf := by
      intro hm
      exact hnd.2.2 hm (by simp)
    have hsize_xs : (xs.map fun r => r.content.length).sum ≤ maxSizeBytes cfg := by
      have hsize' := hsize
      simp only [List.map_append, List.sum_append, List.map_cons, List.sum_cons, List.map_nil,
        List.sum_nil] at hsize'
      omega
    have helig_xs : ∀ r ∈ xs, respEligible cfg r := fun r hr => helig r (by simp [hr])
    have helig_y : respEligible cfg y := helig y (by simp)
    have hfill := storeAll_fill cfg xs now [] helig_xs (by simpa using hnd.1)
      (by simp [hxslen]) (by simpa [totalSize] using hsize_xs)
    rw [List.nil_append] at hfill
    obtain ⟨r0, tail, htail⟩ : ∃ r0 tail, xs ++ [y] = r0 :: tail := by
      cases hxy : xs ++ [y] with
      | nil => simp at hxy
      | cons a b => exact ⟨a, b, rfl⟩
    have htail_len : tail.length = cfg.max_entries := by
      have h1 : (r0 :: tail).length = cfg.max_entries + 1 := by
        rw [← htail]
        simp [hxslen]
      simp only [List.length_cons] at h1
      omega
    have hfull : mkEntries cfg now xs ++ [(keyOf y, entryOf cfg (now + xs.length) y none)]
        = mkEntries cfg now (xs ++ [y]) := by
      rw [mkEntries_append]
      rfl
    have hmin : ∀ kv ∈ mkEntries cfg (now + 1) tail,
        ((keyOf r0, entryOf cfg now r0 none) : String × CacheEntry).2.cached_at
          ≤ kv.2.cached_at := by
      intro kv hkv
      have := mkEntries_times cfg (now + 1) tail kv hkv
      simp only [entryOf]
      omega
    have hlen_tail : (mkEntries cfg (now + 1) tail).length = cfg.max_entries := by
      rw [mkEntries_length]
      exact htail_len
    have hsize_full : totalSize ((keyOf r0, entryOf cfg now r0 none)
        :: mkEntries cfg (now + 1) tail) ≤ maxSizeBytes cfg := by
      have h1 : (keyOf r0, entryOf cfg now r0 none) :: mkEntries cfg (now + 1) tail
          = mkEntries cfg now (r0 :: tail) := rfl
      rw [h1, mkEntries_sizes, ← htail]
      exact hsize
    have hev := evict_once cfg (keyOf r0, entryOf cfg now r0 none)
      (mkEntries cfg (now + 1) tail) hmin hlen_tail hsize_full
    have hindex : storeAll ⟨cfg, []⟩ now (xs ++ [y]) = ⟨cfg, mkEntries cfg (now + 1) tail⟩ := by
      rw [storeAll_append, hfill]
      show storeAll (cache_response false ⟨cfg, mkEntries cfg now xs⟩ (now + xs.length) y none)
          (now + xs.length + 1) [] = _
      rw [cache_response_writes _ _ _ _ helig_y]
      show (⟨cfg, enforceBounds cfg (insertEntry (mkEntries cfg now xs) (keyOf y)
          (entryOf cfg (now + xs.length) y none))⟩ : Cache) = _
      rw [insertEntry_of_not_mem _ _ _ (by rw [mkEntries_keys]; exact hkey_y)]
      rw [hfull, htail]
      show (⟨cfg, enforceBounds cfg ((keyOf r0, entryOf cfg now r0 none)
          :: mkEntries cfg (now + 1) tail)⟩ : Cache) = _
      rw [hev]
    refine ⟨?_, ?_, ?_⟩
    · rw [hindex, htail]
      rfl
    · rw [hindex]
      exact hlen_tail
    · intro kv hkv
      rw [hindex] at hkv
      have := mkEntries_times cfg (now + 1) tail kv hkv
      omega

/-- Witness for C6: a store into an in-bounds cache stays in bounds, and
storing 3 distinct eligible entries with `max_entries = 2` keeps exactly the
2 newest (the oldest entry, cached at time 0, is the one evicted). -/
theorem c6_witness :
    (withinBounds cfgW6 (Cache.mk cfgW6 []).index = true ∧
     withinBounds cfgW6 (cache_response false (Cache.mk cfgW6 []) 0 rA none).index = true) ∧
    ((storeAll (Cache.mk cfgW6 []) 0 [rA, rB, rC]).index
        = (mkEntries cfgW6 0 [rA, rB, rC]).drop 1 ∧
     (storeAll (Cache.mk cfgW6 []) 0 [rA, rB, rC]).index.length = cfgW6.max_entries ∧
     ∀ kv ∈ (storeAll (Cache.mk cfgW6 []) 0 [rA, rB, rC]).index, 0 < kv.2.cached_at) :=
  ⟨⟨by decide,
    c6_store_bounds_and_oldest_eviction.1 false (Cache.mk cfgW6 []) 0 rA none (by decide)⟩,
   c6_store_bounds_and_oldest_eviction.2 cfgW6 0 [rA, rB, rC] (by decide) (by decide)
     (by decide) (by decide)⟩

end Talkie
